import Mathlib

/-!
# Verification of the laguna-agent-api core

Shallow embedding of the attribution / reconciliation core of the
`laguna-agent-api` repository (`src/routes.ts`, `src/link-generator.ts`,
`src/shortener.ts`), together with proofs of the behavioural claims about
it.

Modelling conventions:
* JavaScript numbers that carry money amounts (`commissionUsdt`,
  `orderAmount`, cashback rates) are modelled as `Rat`.
* JavaScript `undefined`/missing JSON fields are modelled with `Option`;
  the JS `x || y` idiom on numbers (respectively strings) is embedded as
  `jsOrRat` (respectively `jsOrStr`): a `none`, a zero, or an empty string
  on the left falls through to the right operand.
* The Prisma store is a record of lists (`Db`); `findUnique`/`findFirst`
  become `List.find?`, `create` appends, `update` rewrites the row with
  the matching id in place.
* Wall-clock timestamps (`new Date().toISOString()`), random draws
  (`Math.random()`) and outbound HTTP results are inputs of the embedded
  handlers, so that the handlers themselves are pure functions.
* `String.toLowerCase()` is embedded as a character-wise map with core's
  `Char.toLower`, which is exactly the basic-latin fragment of the JS
  function; every string the claims quantify over is basic latin.
-/

/-- Canonical reward lifecycle states (the `status` enum of `AgentReward`). -/
inductive RewardStatus where
  | NOT_TRACKED
  | PENDING
  | COMMISSIONED
  | PAID
  | CANCELLED
deriving DecidableEq, Repr

/-- Embedding of JS `String.prototype.toLowerCase` (basic-latin fragment). -/
def jsToLower (s : String) : String :=
  String.mk (s.data.map Char.toLower)

/-- `c` is an ASCII hex digit (`[0-9a-fA-F]`). -/
def isHexDigit (c : Char) : Bool :=
  decide ((48 ≤ c.toNat ∧ c.toNat ≤ 57) ∨ (97 ≤ c.toNat ∧ c.toNat ≤ 102) ∨
    (65 ≤ c.toNat ∧ c.toNat ≤ 70))

/-- `c` is a lower-case ASCII hex digit (`[a-f0-9]`), the character class of
the fingerprint capture group in `extractWalletPrefix`'s regex. -/
def isLowerHexDigit (c : Char) : Bool :=
  decide ((48 ≤ c.toNat ∧ c.toNat ≤ 57) ∨ (97 ≤ c.toNat ∧ c.toNat ≤ 102))

/-- The wallet-address validation regex `^0x[a-fA-F0-9]{40}$`
(`walletAddressSchema` in `routes.ts`). -/
def validWallet (s : String) : Bool :=
  match s.data with
  | '0' :: 'x' :: rest => rest.length == 40 && rest.all isHexDigit
  | _ => false

/-- JS `s.slice(a, b)` for `0 ≤ a ≤ b` (characters `a` to `b-1`). -/
def strSlice (s : String) (a b : Nat) : String :=
  String.mk ((s.data.drop a).take (b - a))

/-- `generateSubId` from `link-generator.ts`:
`agent_` + lower-cased `walletAddress.slice(2, 10)` + `_` + random + `_` +
timestamp.  The random and time components are inputs of the embedding. -/
def generateSubId (walletAddress randomPart timePart : String) : String :=
  "agent_" ++ jsToLower (strSlice walletAddress 2 10) ++ "_" ++ randomPart ++ "_" ++ timePart

/-- The regex `/^agent_([a-f0-9]{8})_/` of `extractWalletPrefix`, on the
character list of the scrutinised string: the first six characters are
`agent_`, the next eight are lower-case hex (the capture group), and the
fifteenth is `_`. -/
def extractFingerprintAux (cs : List Char) : Option (List Char) :=
  if cs.take 6 = "agent_".data ∧ ((cs.drop 6).take 8).length = 8 ∧
      ((cs.drop 6).take 8).all isLowerHexDigit = true ∧ (cs.drop 14).take 1 = ['_'] then
    some ((cs.drop 6).take 8)
  else
    none

/-- `extractWalletPrefix` from `link-generator.ts`: match the subId against
`/^agent_([a-f0-9]{8})_/` and return the capture group, else `null`. -/
def extractWalletFingerprint (subId : String) : Option String :=
  (extractFingerprintAux subId.data).map String.mk

/-- The token shape the decoder recognises, written as a structural
decomposition (used to state that every string NOT of this shape decodes to
`none`): `agent_` + an 8-character lower-hex fingerprint + `_` + anything. -/
def TokenShape (s : String) : Prop :=
  ∃ fp rest, s.data = "agent_".data ++ fp ++ '_' :: rest ∧
    fp.length = 8 ∧ fp.all isLowerHexDigit = true

/-- Executable mirror of `TokenShape`. -/
def tokenShapeCheck (s : String) : Bool :=
  match s.data with
  | 'a' :: 'g' :: 'e' :: 'n' :: 't' :: '_' ::
      c1 :: c2 :: c3 :: c4 :: c5 :: c6 :: c7 :: c8 :: '_' :: _ =>
    [c1, c2, c3, c4, c5, c6, c7, c8].all isLowerHexDigit
  | _ => false

/-- Vendor status vocabulary → canonical status, after lower-casing: the
`switch` statement of the postback handler (`routes.ts`). -/
def canonStatus (ls : String) : RewardStatus :=
  match ls with
  | "pending" => .PENDING
  | "before_pending" => .PENDING
  | "commissioned" => .COMMISSIONED
  | "approved" => .COMMISSIONED
  | "paid" => .PAID
  | "success" => .PAID
  | "cancelled" => .CANCELLED
  | "reversed" => .CANCELLED
  | "rejected" => .CANCELLED
  | _ => .NOT_TRACKED

/-- `switch (status?.toLowerCase()) { ... default: 'NOT_TRACKED' }`:
a missing status short-circuits to the default branch. -/
def mapVendorStatus (status : Option String) : RewardStatus :=
  match status with
  | none => .NOT_TRACKED
  | some s => canonStatus (jsToLower s)

/-- JS `v || d` for a possibly-missing number field: `undefined` and `0`
are falsy and fall through to `d`. -/
def jsOrRat (v : Option Rat) (d : Rat) : Rat :=
  match v with
  | some c => if c = 0 then d else c
  | none => d

/-- JS `v || d` for a possibly-missing string field: `undefined` and `""`
are falsy and fall through to `d`. -/
def jsOrStr (v : Option String) (d : String) : String :=
  match v with
  | some s => if s = "" then d else s
  | none => d

/-- `orderId || undefined` in the reward `findFirst` filter: an absent or
empty order id contributes NO filter condition (Prisma drops `undefined`
conditions). -/
def presentOrderId (v : Option String) : Option String :=
  match v with
  | some s => if s = "" then none else some s
  | none => none

/-- Body of `POST /webhooks/postback` (free-form field presence). -/
structure Postback where
  subId : String
  orderId : Option String
  orderAmount : Option Rat
  orderCurrency : Option String
  commissionUsdt : Option Rat
  status : Option String
  source : Option String
deriving DecidableEq, Repr

/-- An `Agent` row. -/
structure Agent where
  id : Nat
  walletAddress : String
deriving DecidableEq, Repr

/-- An `AgentLink` row. -/
structure AgentLink where
  id : Nat
  agentId : Nat
  merchantId : String
  merchantName : String
  subId : String
  trackingUrl : String
  shortCode : String
  cashbackRate : Rat
  clickCount : Nat
  lastClickAt : Option String
deriving DecidableEq, Repr

/-- An `AgentReward` row.  `statusHistory` is the JSON object keyed by ISO
timestamp, as an insertion-ordered association list. -/
structure AgentReward where
  id : Nat
  agentId : Nat
  linkId : Nat
  orderId : Option String
  orderAmount : Rat
  orderCurrency : String
  commissionUsdt : Rat
  status : RewardStatus
  statusHistory : List (String × RewardStatus)
  postbackSource : Option String
  postbackData : Option Postback
deriving DecidableEq, Repr

/-- The Prisma store. `nextId` models the id sequence of `create`. -/
structure Db where
  agents : List Agent
  links : List AgentLink
  rewards : List AgentReward
  nextId : Nat
deriving DecidableEq, Repr

/-- JS object update `{...h, [k]: v}` with insertion-ordered string keys:
an existing key keeps its position and gets the new value, a fresh key is
appended. -/
def insertHistory (h : List (String × RewardStatus)) (k : String) (v : RewardStatus) :
    List (String × RewardStatus) :=
  if h.any (fun p => p.1 == k) then
    h.map (fun p => if p.1 == k then (k, v) else p)
  else
    h ++ [(k, v)]

/-- `prisma.agentReward.findFirst({ where: { linkId, orderId: orderId || undefined } })`:
with an absent/empty inbound order id the `orderId` condition disappears and
the first reward of the link (in row order) matches. -/
def findReward (db : Db) (linkId : Nat) (ord : Option String) : Option AgentReward :=
  db.rewards.find? (fun r =>
    r.linkId == linkId &&
      (match ord with
       | some o => r.orderId == some o
       | none => true))

/-- The `update` branch of postback ingestion: replace status, keep a
falsy inbound commission from clobbering the stored one, merge the history
object under the current timestamp key, replace the raw payload. -/
def updatedReward (r : AgentReward) (pb : Postback) (now : String) : AgentReward :=
  { r with
    status := mapVendorStatus pb.status
    commissionUsdt := jsOrRat pb.commissionUsdt r.commissionUsdt
    statusHistory := insertHistory r.statusHistory now (mapVendorStatus pb.status)
    postbackData := some pb }

/-- The `create` branch of postback ingestion. -/
def createdReward (db : Db) (link : AgentLink) (pb : Postback) (now : String) : AgentReward :=
  { id := db.nextId
    agentId := link.agentId
    linkId := link.id
    orderId := pb.orderId
    orderAmount := jsOrRat pb.orderAmount 0
    orderCurrency := jsOrStr pb.orderCurrency "USD"
    commissionUsdt := jsOrRat pb.commissionUsdt 0
    status := mapVendorStatus pb.status
    statusHistory := [(now, mapVendorStatus pb.status)]
    postbackSource := pb.source
    postbackData := some pb }

/-- A call to `lagunaClient.requestAgentWithdrawal`. -/
structure PayoutRequest where
  walletAddress : String
  amountUsdt : Rat
  rewardId : Nat
deriving DecidableEq, Repr

/-- Modelled from the spec: the external Payout Requester collaborator
(`requestAgentWithdrawal` lives in the part of `laguna-client.ts` that is
not among the provided sources).  Per the spec it accepts (destination
wallet, amount, idempotency-reference) and reports success or a soft
failure; the handler consumes it as `{ success: boolean; error?: string }`. -/
structure PayoutOutcome where
  success : Bool
  error : Option String
deriving DecidableEq, Repr

/-- Response of `POST /webhooks/postback`.  `payoutRequests` records the
calls made to the Payout Requester during the ingestion. -/
structure PostbackResponse where
  httpStatus : Nat
  success : Bool
  rewardId : Option Nat
  status : Option RewardStatus
  walletAddress : Option String
  withdrawalError : Option String
  payoutRequests : List PayoutRequest
  error : Option String
deriving DecidableEq, Repr

/-- Tail of the postback handler: fire the payout request iff the (merged)
status is `PAID` with a strictly positive commission, then build the
success envelope, attaching `withdrawalError` when the payout call
reported failure. -/
def finishPostback (db : Db) (agent : Agent) (r : AgentReward)
    (payout : PayoutRequest → PayoutOutcome) : Db × PostbackResponse :=
  if r.status = .PAID ∧ 0 < r.commissionUsdt then
    let req : PayoutRequest := ⟨agent.walletAddress, r.commissionUsdt, r.id⟩
    let outcome := payout req
    (db, { httpStatus := 200, success := true, rewardId := some r.id,
           status := some r.status, walletAddress := some agent.walletAddress,
           withdrawalError := if outcome.success then none else outcome.error,
           payoutRequests := [req], error := none })
  else
    (db, { httpStatus := 200, success := true, rewardId := some r.id,
           status := some r.status, walletAddress := some agent.walletAddress,
           withdrawalError := none, payoutRequests := [], error := none })

/-- `POST /webhooks/postback` (`routes.ts`).  `now` is the ISO timestamp
taken during this ingestion, `payout` the Payout Requester collaborator. -/
def ingestPostback (db : Db) (now : String) (payout : PayoutRequest → PayoutOutcome)
    (pb : Postback) : Db × PostbackResponse :=
  match db.links.find? (fun l => l.subId == pb.subId) with
  | none =>
    (db, { httpStatus := 404, success := false, rewardId := none, status := none,
           walletAddress := none, withdrawalError := none, payoutRequests := [],
           error := some "Link not found" })
  | some link =>
    match db.agents.find? (fun a => a.id == link.agentId) with
    | none =>
      -- dangling `link.agent` relation: the JS property access throws and
      -- the handler's catch-all answers 400
      (db, { httpStatus := 400, success := false, rewardId := none, status := none,
             walletAddress := none, withdrawalError := none, payoutRequests := [],
             error := some "Unknown error" })
    | some agent =>
      match findReward db link.id (presentOrderId pb.orderId) with
      | some r0 =>
        let r := updatedReward r0 pb now
        let db' := { db with
          rewards := db.rewards.map (fun x => if x.id == r0.id then r else x) }
        finishPostback db' agent r payout
      | none =>
        let r := createdReward db link pb now
        let db' := { db with rewards := db.rewards ++ [r], nextId := db.nextId + 1 }
        finishPostback db' agent r payout

/-- Fold a sequence of (timestamp, postback) deliveries through the
ingestion handler, keeping only the store. -/
def ingestSeq (db : Db) (payout : PayoutRequest → PayoutOutcome)
    (events : List (String × Postback)) : Db :=
  events.foldl (fun d e => (ingestPostback d e.1 payout e.2).1) db

/-- Response of `GET /go/:code`. -/
inductive GoResponse where
  | redirect (httpStatus : Nat) (url : String)
  | notFound (msg : String)
  | serverError (msg : String)
deriving DecidableEq, Repr

/-- `GET /go/:code` (`routes.ts`): resolve the short code, update click
telemetry, redirect.  `telemetryFailure` is the outcome of the
`prisma.agentLink.update` call: `none` means it succeeded, `some e` means
it threw with message `e` — in which case control reaches the handler's
catch block, which answers 500, before any redirect is sent. -/
def resolveGo (db : Db) (code : String) (now : String) (telemetryFailure : Option String) :
    Db × GoResponse :=
  match db.links.find? (fun l => l.shortCode == code) with
  | none => (db, .notFound "Link not found")
  | some link =>
    match telemetryFailure with
    | some e => (db, .serverError e)
    | none =>
      ({ db with links := db.links.map (fun l =>
           if l.id == link.id then { l with clickCount := l.clickCount + 1,
                                            lastClickAt := some now } else l) },
       .redirect 302 link.trackingUrl)

/-- The short-code retry loop of `POST /links` (`routes.ts`):
`while (true) { code = generateShortCode(); if (!taken) break;
attempts++; if (attempts > 10) throw }`.  `stream i` is the i-th draw of
`generateShortCode()`; the fuel argument is `11 - attempts`, i.e. the
number of draws the loop may still spend (the loop throws when the
`attempts` counter exceeds 10, that is, after the eleventh colliding
draw). -/
def mintAux (taken : String → Bool) (stream : Nat → String) (i : Nat) :
    Nat → Except String String
  | 0 => .error "Failed to generate unique short code"
  | fuel + 1 =>
    if taken (stream i) then
      mintAux taken stream (i + 1) fuel
    else
      .ok (stream i)

/-- Entry point of the retry loop: `attempts` starts at 0, so eleven draws
(one initial draw plus ten retries) are available. -/
def mintShortCode (taken : String → Bool) (stream : Nat → String) : Except String String :=
  mintAux taken stream 0 11

/-- A cashback rate entry of a merchant (USDT-filtered upstream). -/
structure CashbackRate where
  cashbackPercent : Rat
  cashbackAmount : Rat
deriving DecidableEq, Repr

/-- The merchant fields `POST /links` consumes. -/
structure Merchant where
  id : String
  slugId : String
  name : String
  campaignId : String
  url : String
  thirdPartyType : String
  cashbackRates : List CashbackRate
deriving DecidableEq, Repr

/-- Response of `POST /links`. -/
structure LinksResponse where
  httpStatus : Nat
  success : Bool
  linkId : Option Nat
  affiliateLink : Option String
  error : Option String
deriving DecidableEq, Repr

/-- Error envelope of the `POST /links` handler (its catch-all maps every
thrown error, short-code exhaustion included, to HTTP 400). -/
def linksErr (httpStatus : Nat) (e : String) : LinksResponse :=
  { httpStatus := httpStatus, success := false, linkId := none,
    affiliateLink := none, error := some e }

/-- `buildShortUrl` from `shortener.ts`. -/
def buildShortUrl (base shortCode : String) : String :=
  base ++ "/" ++ shortCode

/-- `POST /links` (`routes.ts`).  Outbound collaborators are inputs:
`merchant` is the catalog lookup result, `direct` the outcome of
`generateAffiliateLink`, `fallback` the outcome of the backend-mediated
`generateTrackingLink`, `stream` the draws of `generateShortCode`. -/
def postLinks (db : Db) (walletAddress _merchantId : String) (merchant : Option Merchant)
    (direct fallback : Except String String) (randomPart timePart : String)
    (stream : Nat → String) (base : String) : Db × LinksResponse :=
  if validWallet walletAddress = false then
    (db, linksErr 400 "Invalid ERC-20 wallet address")
  else
    let normalized := jsToLower walletAddress
    match merchant with
    | none => (db, linksErr 404 "Merchant not found")
    | some m =>
      match m.cashbackRates with
      | [] => (db, linksErr 400 "No USDT cashback available for this merchant")
      | usdtRate :: _ =>
        let found := db.agents.find? (fun a => a.walletAddress == normalized)
        let agent := match found with
          | some a => a
          | none => { id := db.nextId, walletAddress := normalized }
        let db1 := match found with
          | some _ => db
          | none => { db with agents := db.agents ++ [agent], nextId := db.nextId + 1 }
        let subId := generateSubId normalized randomPart timePart
        match (match direct with | .ok u => .ok u | .error _ => fallback :
            Except String String) with
        | .error e => (db1, linksErr 400 e)
        | .ok trackingUrl =>
          match mintShortCode (fun c => db1.links.any (fun l => l.shortCode == c)) stream with
          | .error e => (db1, linksErr 400 e)
          | .ok shortCode =>
            let link : AgentLink :=
              { id := db1.nextId, agentId := agent.id, merchantId := m.id,
                merchantName := m.name, subId := subId, trackingUrl := trackingUrl,
                shortCode := shortCode,
                cashbackRate := if usdtRate.cashbackPercent = 0 then usdtRate.cashbackAmount
                                else usdtRate.cashbackPercent,
                clickCount := 0, lastClickAt := none }
            ({ db1 with links := db1.links ++ [link], nextId := db1.nextId + 1 },
             { httpStatus := 200, success := true, linkId := some link.id,
               affiliateLink := some (buildShortUrl base shortCode), error := none })

/-- The `byStatus` accumulator of `GET /earnings`. -/
structure ByStatus where
  not_tracked : Rat
  pending : Rat
  commissioned : Rat
  paid : Rat
  cancelled : Rat
deriving DecidableEq, Repr

/-- One turn of the `for (const reward of agent.rewards)` loop of
`GET /earnings`: add the commission to the bucket of the reward's status. -/
def earnStep (acc : ByStatus) (r : AgentReward) : ByStatus :=
  match r.status with
  | .NOT_TRACKED => { acc with not_tracked := acc.not_tracked + r.commissionUsdt }
  | .PENDING => { acc with pending := acc.pending + r.commissionUsdt }
  | .COMMISSIONED => { acc with commissioned := acc.commissioned + r.commissionUsdt }
  | .PAID => { acc with paid := acc.paid + r.commissionUsdt }
  | .CANCELLED => { acc with cancelled := acc.cancelled + r.commissionUsdt }

/-- The `for (const reward of agent.rewards)` aggregation loop of
`GET /earnings`. -/
def byStatusFold (rewards : List AgentReward) : ByStatus :=
  rewards.foldl earnStep ⟨0, 0, 0, 0, 0⟩

/-- Response of `GET /earnings`. -/
structure EarningsResponse where
  httpStatus : Nat
  success : Bool
  walletAddress : String
  totalEarnedUsdt : Rat
  byStatus : ByStatus
  totalLinks : Nat
deriving DecidableEq, Repr

/-- `GET /earnings` (`routes.ts`): `totalEarned = byStatus.commissioned +
byStatus.paid` over the agent's rewards. -/
def getEarnings (db : Db) (walletAddress : String) : EarningsResponse :=
  if validWallet walletAddress = false then
    { httpStatus := 400, success := false, walletAddress := walletAddress,
      totalEarnedUsdt := 0, byStatus := ⟨0, 0, 0, 0, 0⟩, totalLinks := 0 }
  else
    let normalized := jsToLower walletAddress
    match db.agents.find? (fun a => a.walletAddress == normalized) with
    | none =>
      { httpStatus := 200, success := true, walletAddress := normalized,
        totalEarnedUsdt := 0, byStatus := ⟨0, 0, 0, 0, 0⟩, totalLinks := 0 }
    | some agent =>
      let rewards := db.rewards.filter (fun r => r.agentId == agent.id)
      let bs := byStatusFold rewards
      { httpStatus := 200, success := true, walletAddress := normalized,
        totalEarnedUsdt := bs.commissioned + bs.paid, byStatus := bs,
        totalLinks := (db.links.filter (fun l => l.agentId == agent.id)).length }

/-! ## Concrete fixtures used by witnesses and counterexamples -/

def agentW : Agent := ⟨0, "0xaaaaaaaaaaaaaaaaaaaaaaaaaaaaaaaaaaaaaaaa"⟩

def rewardFixture (i : Nat) (st : RewardStatus) (c : Rat) : AgentReward :=
  { id := i, agentId := 0, linkId := 1, orderId := some ("O" ++ toString i),
    orderAmount := 0, orderCurrency := "USD", commissionUsdt := c, status := st,
    statusHistory := [], postbackSource := none, postbackData := none }

def dbEarn : Db :=
  { agents := [agentW], links := [],
    rewards := [rewardFixture 1 .NOT_TRACKED 1, rewardFixture 2 .PENDING 2,
      rewardFixture 3 .COMMISSIONED 4, rewardFixture 4 .PAID 8,
      rewardFixture 5 .CANCELLED 16, rewardFixture 6 .COMMISSIONED 32],
    nextId := 7 }

def linkC : AgentLink :=
  { id := 1, agentId := 0, merchantId := "m", merchantName := "M",
    subId := "sub1", trackingUrl := "http://t", shortCode := "c0de",
    cashbackRate := 1, clickCount := 0, lastClickAt := none }

def rewardC7 : AgentReward :=
  { id := 7, agentId := 0, linkId := 1, orderId := some "O1",
    orderAmount := 100, orderCurrency := "USD", commissionUsdt := 5,
    status := .PENDING, statusHistory := [("T0", .PENDING)],
    postbackSource := none, postbackData := none }

def dbC7 : Db :=
  { agents := [agentW], links := [linkC], rewards := [rewardC7], nextId := 8 }

def pbSparse : Postback :=
  { subId := "sub1", orderId := some "O1", orderAmount := none, orderCurrency := none,
    commissionUsdt := none, status := some "approved", source := none }

def pbRich : Postback :=
  { subId := "sub1", orderId := some "O1", orderAmount := none, orderCurrency := none,
    commissionUsdt := some 9, status := some "approved", source := none }

def payoutOk : PayoutRequest → PayoutOutcome := fun _ => ⟨true, none⟩

def pbPaid : Postback :=
  { subId := "sub1", orderId := some "O1", orderAmount := none, orderCurrency := none,
    commissionUsdt := some 9, status := some "success", source := none }

def payoutFail : PayoutRequest → PayoutOutcome := fun _ => ⟨false, some "withdrawal failed"⟩

def pbOrderless : Postback :=
  { subId := "sub1", orderId := none, orderAmount := none, orderCurrency := none,
    commissionUsdt := some 3, status := some "paid", source := none }

def merchC4 : Merchant :=
  { id := "m1", slugId := "m1", name := "M1", campaignId := "c", url := "u",
    thirdPartyType := "involve", cashbackRates := [⟨4, 0⟩] }

def mkLinkFix (n : Nat) : AgentLink :=
  { id := n, agentId := 0, merchantId := "m", merchantName := "M",
    subId := "s" ++ toString n, trackingUrl := "u", shortCode := "K" ++ toString n,
    cashbackRate := 1, clickCount := 0, lastClickAt := none }

def dbC4 : Db :=
  { agents := [], links := (List.range 11).map mkLinkFix, rewards := [], nextId := 100 }

def streamC4 : Nat → String := fun i => "K" ++ toString i

def dbSeq : Db := { agents := [agentW], links := [linkC], rewards := [], nextId := 8 }

def pbOrder (st : String) : Postback :=
  { subId := "sub1", orderId := some "O1", orderAmount := none, orderCurrency := none,
    commissionUsdt := none, status := some st, source := none }

/-- The reward row this ingestion writes: the merge of the inbound postback
into the existing `(link, order id)` reward when one matches, a fresh row
otherwise. -/
def mergedReward (db : Db) (link : AgentLink) (pb : Postback) (now : String) : AgentReward :=
  match findReward db link.id (presentOrderId pb.orderId) with
  | some r0 => updatedReward r0 pb now
  | none => createdReward db link pb now

/-! ## Helper lemmas -/

theorem foldl_earnStep_commissioned (l : List AgentReward) (acc : ByStatus) :
    (l.foldl earnStep acc).commissioned =
      acc.commissioned +
        ((l.filter (fun r => r.status == RewardStatus.COMMISSIONED)).map
          (fun r => r.commissionUsdt)).sum := by
  induction l generalizing acc with
  | nil => simp
  | cons r l ih =>
    rcases h : r.status <;>
      simp [List.foldl_cons, ih, earnStep, h, List.filter_cons] <;> ring

theorem foldl_earnStep_paid (l : List AgentReward) (acc : ByStatus) :
    (l.foldl earnStep acc).paid =
      acc.paid +
        ((l.filter (fun r => r.status == RewardStatus.PAID)).map
          (fun r => r.commissionUsdt)).sum := by
  induction l generalizing acc with
  | nil => simp
  | cons r l ih =>
    rcases h : r.status <;>
      simp [List.foldl_cons, ih, earnStep, h, List.filter_cons] <;> ring

theorem sum_filter_commissioned_paid (l : List AgentReward) :
    ((l.filter (fun r => r.status == RewardStatus.COMMISSIONED)).map
        (fun r => r.commissionUsdt)).sum +
      ((l.filter (fun r => r.status == RewardStatus.PAID)).map
        (fun r => r.commissionUsdt)).sum =
      ((l.filter (fun r =>
          r.status == RewardStatus.COMMISSIONED || r.status == RewardStatus.PAID)).map
        (fun r => r.commissionUsdt)).sum := by
  induction l with
  | nil => simp
  | cons r l ih =>
    rcases h : r.status <;> simp [List.filter_cons, h, ← ih] <;> ring

/-! ## C8 -/

/-- C8: vendor-status mapping is case-insensitive (it only depends on the
lower-cased status string), a missing status maps to `NOT_TRACKED`,
`approved` maps to `COMMISSIONED`, `success` to `PAID`, `reversed` and
`rejected` to `CANCELLED`, and any status outside the known lower-case
vocabulary maps to `NOT_TRACKED` (the mapping is total, never an error). -/
theorem c8_status_mapping_total_case_insensitive :
    (∀ s t : String, jsToLower s = jsToLower t →
      mapVendorStatus (some s) = mapVendorStatus (some t)) ∧
    mapVendorStatus none = RewardStatus.NOT_TRACKED ∧
    mapVendorStatus (some "approved") = RewardStatus.COMMISSIONED ∧
    mapVendorStatus (some "success") = RewardStatus.PAID ∧
    mapVendorStatus (some "reversed") = RewardStatus.CANCELLED ∧
    mapVendorStatus (some "rejected") = RewardStatus.CANCELLED ∧
    (∀ s : String,
      jsToLower s ∉
        (["pending", "before_pending", "commissioned", "approved", "paid",
          "success", "cancelled", "reversed", "rejected"] : List String) →
      mapVendorStatus (some s) = RewardStatus.NOT_TRACKED) := by
  refine ⟨?_, rfl, rfl, rfl, rfl, rfl, ?_⟩
  · intro s t h
    simp only [mapVendorStatus, h]
  · intro s h
    simp only [List.mem_cons, List.not_mem_nil, or_false, not_or] at h
    obtain ⟨h1, h2, h3, h4, h5, h6, h7, h8, h9⟩ := h
    unfold mapVendorStatus canonStatus
    split <;> simp_all

/-- Witness for C8 at concrete inputs: the mixed-case `"ApProved"` maps the
same way as `"approved"` (to `COMMISSIONED`), and the unknown vendor word
`"weird-status"` maps to `NOT_TRACKED`. -/
theorem c8_witness :
    mapVendorStatus (some "ApProved") = RewardStatus.COMMISSIONED ∧
    mapVendorStatus (some "weird-status") = RewardStatus.NOT_TRACKED :=
  ⟨(c8_status_mapping_total_case_insensitive.1 "ApProved" "approved" (by decide)).trans
      c8_status_mapping_total_case_insensitive.2.2.1,
    c8_status_mapping_total_case_insensitive.2.2.2.2.2.2 "weird-status" (by decide)⟩

/-! ## C10 -/

/-- C10: for an agent found by (normalized) wallet address, the earnings
summary's `totalEarnedUsdt` is exactly the sum of the commission amounts of
the agent's rewards whose status is `COMMISSIONED` or `PAID`; rewards in
any other status contribute nothing. -/
theorem c10_total_earned_is_commissioned_plus_paid (db : Db) (w : String) (agent : Agent)
    (hw : validWallet w = true)
    (ha : db.agents.find? (fun a => a.walletAddress == jsToLower w) = some agent) :
    (getEarnings db w).totalEarnedUsdt =
      (((db.rewards.filter (fun r => r.agentId == agent.id)).filter
          (fun r => r.status == RewardStatus.COMMISSIONED ||
            r.status == RewardStatus.PAID)).map
        (fun r => r.commissionUsdt)).sum := by
  simp only [getEarnings, hw, Bool.true_eq_false, if_false, ha, byStatusFold]
  rw [foldl_earnStep_commissioned, foldl_earnStep_paid]
  simpa using sum_filter_commissioned_paid (db.rewards.filter (fun r => r.agentId == agent.id))

/-- Witness for C10: on a store holding one reward in every status, the
reported total is the `COMMISSIONED` + `PAID` commission sum. -/
theorem c10_witness :
    (getEarnings dbEarn "0xaaaaaaaaaaaaaaaaaaaaaaaaaaaaaaaaaaaaaaaa").totalEarnedUsdt =
      (((dbEarn.rewards.filter (fun r => r.agentId == agentW.id)).filter
          (fun r => r.status == RewardStatus.COMMISSIONED ||
            r.status == RewardStatus.PAID)).map
        (fun r => r.commissionUsdt)).sum :=
  c10_total_earned_is_commissioned_plus_paid dbEarn
    "0xaaaaaaaaaaaaaaaaaaaaaaaaaaaaaaaaaaaaaaaa" agentW (by decide) (by decide)

/-! ## C7 and C1 -/

theorem finishPostback_fst (db : Db) (agent : Agent) (r : AgentReward)
    (payout : PayoutRequest → PayoutOutcome) : (finishPostback db agent r payout).1 = db := by
  unfold finishPostback
  split <;> rfl

/-- C7: when a postback finds an existing reward, the merged row keeps the
previously stored commission whenever the inbound commission is absent or
zero, and takes the inbound commission exactly when it is present and
non-zero; the merged row is persisted. -/
theorem c7_commission_never_regressed (db : Db) (now : String)
    (payout : PayoutRequest → PayoutOutcome) (pb : Postback) (link : AgentLink)
    (agent : Agent) (r0 : AgentReward) (c : Rat)
    (hl : db.links.find? (fun l => l.subId == pb.subId) = some link)
    (ha : db.agents.find? (fun a => a.id == link.agentId) = some agent)
    (hr : findReward db link.id (presentOrderId pb.orderId) = some r0) :
    updatedReward r0 pb now ∈ (ingestPostback db now payout pb).1.rewards ∧
    ((pb.commissionUsdt = none ∨ pb.commissionUsdt = some 0) →
      (updatedReward r0 pb now).commissionUsdt = r0.commissionUsdt) ∧
    (pb.commissionUsdt = some c → c ≠ 0 →
      (updatedReward r0 pb now).commissionUsdt = c) := by
  refine ⟨?_, ?_, ?_⟩
  · have hmem : r0 ∈ db.rewards := List.mem_of_find?_eq_some hr
    simp only [ingestPostback, hl, ha, hr, finishPostback_fst]
    have h2 := List.mem_map_of_mem
      (fun x => if x.id == r0.id then updatedReward r0 pb now else x) hmem
    simpa using h2
  · rintro (h | h) <;> simp [updatedReward, jsOrRat, h]
  · intro h hc
    simp [updatedReward, jsOrRat, h, hc]

/-- Witness for C7: a sparse re-delivery (no commission field) keeps the
stored commission 5; a re-delivery carrying commission 9 replaces it. -/
theorem c7_witness :
    (updatedReward rewardC7 pbSparse "T1").commissionUsdt = rewardC7.commissionUsdt ∧
    (updatedReward rewardC7 pbRich "T1").commissionUsdt = 9 :=
  ⟨(c7_commission_never_regressed dbC7 "T1" payoutOk pbSparse
      linkC agentW rewardC7 9 (by decide) (by decide) (by decide)).2.1 (Or.inl rfl),
   (c7_commission_never_regressed dbC7 "T1" payoutOk pbRich
      linkC agentW rewardC7 9 (by decide) (by decide) (by decide)).2.2 rfl (by decide)⟩

/-- C1: one ingestion fires exactly one payout request — carrying the link
owner's wallet address, the merged reward's commission and the reward id —
if and only if the merged status is `PAID` with strictly positive
commission; the merged reward is persisted either way, the response is a
success envelope either way, the soft `withdrawalError` field carries the
payout failure, and the persisted store does not depend on the payout
outcome at all. -/
theorem c1_payout_exactly_once_iff_paid_positive (db : Db) (now : String)
    (payout payout2 : PayoutRequest → PayoutOutcome) (pb : Postback)
    (link : AgentLink) (agent : Agent)
    (hl : db.links.find? (fun l => l.subId == pb.subId) = some link)
    (ha : db.agents.find? (fun a => a.id == link.agentId) = some agent) :
    let r := mergedReward db link pb now
    let out := ingestPostback db now payout pb
    out.2.httpStatus = 200 ∧ out.2.success = true ∧
    out.2.rewardId = some r.id ∧ r ∈ out.1.rewards ∧
    (r.status = RewardStatus.PAID ∧ 0 < r.commissionUsdt →
      out.2.payoutRequests = [⟨agent.walletAddress, r.commissionUsdt, r.id⟩]) ∧
    (¬(r.status = RewardStatus.PAID ∧ 0 < r.commissionUsdt) →
      out.2.payoutRequests = []) ∧
    out.2.withdrawalError =
      (if r.status = RewardStatus.PAID ∧ 0 < r.commissionUsdt then
        (if (payout ⟨agent.walletAddress, r.commissionUsdt, r.id⟩).success then none
         else (payout ⟨agent.walletAddress, r.commissionUsdt, r.id⟩).error)
       else none) ∧
    (ingestPostback db now payout2 pb).1 = out.1 := by
  intro r out
  have core : ∀ (p : PayoutRequest → PayoutOutcome),
      (ingestPostback db now p pb) =
        (finishPostback
          (match findReward db link.id (presentOrderId pb.orderId) with
           | some r0 =>
             { db with rewards :=
                 db.rewards.map (fun x => if x.id == r0.id then r else x) }
           | none =>
             { db with rewards := db.rewards ++ [r], nextId := db.nextId + 1 })
          agent r p) := by
    intro p
    cases hfind : findReward db link.id (presentOrderId pb.orderId) with
    | some r0 => simp only [ingestPostback, hl, ha, hfind, r, mergedReward]
    | none => simp only [ingestPostback, hl, ha, hfind, r, mergedReward]
  have hmem : r ∈ (ingestPostback db now payout pb).1.rewards := by
    rw [core payout, finishPostback_fst]
    cases hfind : findReward db link.id (presentOrderId pb.orderId) with
    | some r0 =>
      have hm : r0 ∈ db.rewards := List.mem_of_find?_eq_some hfind
      have h2 := List.mem_map_of_mem (fun x => if x.id == r0.id then r else x) hm
      simpa using h2
    | none => simp
  refine ⟨?_, ?_, ?_, hmem, ?_, ?_, ?_, ?_⟩ <;>
    rw [show out = ingestPostback db now payout pb from rfl, core payout] <;>
    try rw [core payout2]
  all_goals unfold finishPostback
  all_goals by_cases hc : r.status = RewardStatus.PAID ∧ 0 < r.commissionUsdt
  all_goals simp [hc, finishPostback_fst]

/-- Witness for C1: a `success` postback with commission 9 merged into the
stored reward 7 fires exactly the payout request (owner wallet, 9, 7); with
a failing Payout Requester the response is still a success envelope and
carries the soft `withdrawalError`, and the merged reward is persisted. -/
theorem c1_witness :
    (ingestPostback dbC7 "T1" payoutFail pbPaid).2.payoutRequests =
      [⟨agentW.walletAddress, 9, 7⟩] ∧
    (ingestPostback dbC7 "T1" payoutFail pbPaid).2.success = true ∧
    (ingestPostback dbC7 "T1" payoutFail pbPaid).2.withdrawalError =
      some "withdrawal failed" ∧
    mergedReward dbC7 linkC pbPaid "T1" ∈ (ingestPostback dbC7 "T1" payoutFail pbPaid).1.rewards := by
  have h := c1_payout_exactly_once_iff_paid_positive dbC7 "T1" payoutFail payoutOk pbPaid
    linkC agentW (by decide) (by decide)
  refine ⟨?_, h.2.1, ?_, h.2.2.2.1⟩
  · rw [h.2.2.2.2.1 (by decide)]
    decide
  · rw [h.2.2.2.2.2.2.1]
    decide

/-! ## C2 -/

/-- C2 (claim refuted by the code): on a store whose link `sub1` already
holds the reward 7 for order `O1`, an inbound postback WITHOUT an order id
does not create a new distinct reward: because the handler builds its
`findFirst` filter as `orderId: orderId || undefined`, the order-id
condition vanishes and the orderless postback is merged into the existing
reward for `O1` — afterwards the store still holds exactly the single
reward row 7, now carrying the orderless postback's status `PAID`. -/
theorem c2_counterexample_orderless_postback_merges :
    (ingestPostback dbC7 "T1" payoutOk pbOrderless).1.rewards.map (fun r => r.id) = [7] ∧
    (ingestPostback dbC7 "T1" payoutOk pbOrderless).1.rewards.length = 1 ∧
    (ingestPostback dbC7 "T1" payoutOk pbOrderless).1.rewards.map (fun r => r.status) =
      [RewardStatus.PAID] ∧
    (ingestPostback dbC7 "T1" payoutOk pbOrderless).1.rewards.map (fun r => r.orderId) =
      [some "O1"] := by
  decide

/-! ## C3 -/

/-- C3 (claim refuted by the code): with the short code `c0de` present in
the store, a failing click-telemetry update does NOT leave the redirect
intact — the `prisma.agentLink.update` call sits inside the handler's
try/catch before `res.redirect`, so its failure reaches the catch block and
the response is a 500 error, not the 302 redirect. -/
theorem c3_counterexample_telemetry_failure_blocks_redirect :
    (resolveGo dbC7 "c0de" "T1" (some "db down")).2 = GoResponse.serverError "db down" ∧
    (resolveGo dbC7 "c0de" "T1" (some "db down")).2 ≠
      GoResponse.redirect 302 linkC.trackingUrl := by
  decide

/-- C3 (amended): resolving a present short code answers the 302 redirect
to the stored tracking URL and bumps click telemetry when the telemetry
update succeeds; when the telemetry update fails, the handler answers a 500
error with the failure's message, leaves the store unchanged, and sends no
redirect. -/
theorem c3_redirect_only_when_telemetry_succeeds (db : Db) (code now e : String)
    (link : AgentLink)
    (hl : db.links.find? (fun l => l.shortCode == code) = some link) :
    (resolveGo db code now none).2 = GoResponse.redirect 302 link.trackingUrl ∧
    ({ link with clickCount := link.clickCount + 1, lastClickAt := some now } ∈
      (resolveGo db code now none).1.links) ∧
    (resolveGo db code now (some e)).2 = GoResponse.serverError e ∧
    (resolveGo db code now (some e)).1 = db := by
  refine ⟨?_, ?_, ?_, ?_⟩ <;> simp only [resolveGo, hl]
  · have hm : link ∈ db.links := List.mem_of_find?_eq_some hl
    have h2 := List.mem_map_of_mem
      (fun l => if l.id == link.id then
        { l with clickCount := l.clickCount + 1, lastClickAt := some now } else l) hm
    simpa using h2

/-- Witness for C3 (amended) on the concrete store: successful telemetry
gives the redirect and the bumped click counter; failed telemetry gives the
500 error and an untouched store. -/
theorem c3_witness :
    (resolveGo dbC7 "c0de" "T2" none).2 = GoResponse.redirect 302 linkC.trackingUrl ∧
    ({ linkC with clickCount := 1, lastClickAt := some "T2" } ∈
      (resolveGo dbC7 "c0de" "T2" none).1.links) ∧
    (resolveGo dbC7 "c0de" "T2" (some "boom")).2 = GoResponse.serverError "boom" ∧
    (resolveGo dbC7 "c0de" "T2" (some "boom")).1 = dbC7 :=
  c3_redirect_only_when_telemetry_succeeds dbC7 "c0de" "T2" "boom" linkC (by decide)

/-! ## C4 -/

theorem mintAux_all_taken (taken : String → Bool) (stream : Nat → String) :
    ∀ (f i : Nat), (∀ j, j < f → taken (stream (i + j)) = true) →
    mintAux taken stream i f = .error "Failed to generate unique short code" := by
  intro f
  induction f with
  | zero => intro i _; rfl
  | succ f ih =>
    intro i h
    have h0 : taken (stream i) = true := by simpa using h 0 (Nat.succ_pos f)
    unfold mintAux
    rw [h0]
    simp only [if_pos rfl]
    exact ih (i + 1) (fun j hj => by
      have := h (j + 1) (by omega)
      simpa [Nat.add_assoc, Nat.add_comm 1 j] using this)

theorem mintAux_skip (taken : String → Bool) (stream : Nat → String) :
    ∀ (d i f : Nat), d < f → (∀ j, j < d → taken (stream (i + j)) = true) →
    taken (stream (i + d)) = false →
    mintAux taken stream i f = .ok (stream (i + d)) := by
  intro d
  induction d with
  | zero =>
    intro i f hf _ hfree
    obtain ⟨f, rfl⟩ : ∃ g, f = g + 1 := ⟨f - 1, by omega⟩
    unfold mintAux
    simp only [Nat.add_zero] at hfree
    rw [hfree]
    simp
  | succ d ih =>
    intro i f hf hbusy hfree
    obtain ⟨f, rfl⟩ : ∃ g, f = g + 1 := ⟨f - 1, by omega⟩
    have h0 : taken (stream i) = true := by simpa using hbusy 0 (Nat.succ_pos d)
    unfold mintAux
    rw [h0]
    simp only [if_pos rfl]
    have := ih (i + 1) f (by omega) (fun j hj => by
      have := hbusy (j + 1) (by omega)
      simpa [Nat.add_assoc, Nat.add_comm 1 j] using this)
      (by simpa [Nat.add_assoc, Nat.add_comm 1 d] using hfree)
    simpa [Nat.add_assoc, Nat.add_comm 1 d] using this

/-- C4 (amended): the short-code mint loop retries on collision at most 10
times (the successful draw is one of the first 11, and only happens when
every earlier draw collided); when all 11 draws collide the loop aborts
with the hard `Failed to generate unique short code` error
(`ShortCodeExhausted`), which the `POST /links` handler's catch-all
surfaces to the caller as an HTTP 400 response. -/
theorem c4_short_code_retry_bounded (db : Db) (w mid : String) (m : Merchant)
    (usdtRate : CashbackRate) (rs : List CashbackRate)
    (url fberr randomPart timePart base : String) (stream : Nat → String) (i : Nat)
    (hw : validWallet w = true) (hm : m.cashbackRates = usdtRate :: rs) :
    ((∀ j, j ≤ 10 → db.links.any (fun l => l.shortCode == stream j) = true) →
      (postLinks db w mid (some m) (.ok url) (.error fberr) randomPart timePart
          stream base).2 =
        linksErr 400 "Failed to generate unique short code") ∧
    (i ≤ 10 → db.links.any (fun l => l.shortCode == stream i) = false →
      (∀ j, j < i → db.links.any (fun l => l.shortCode == stream j) = true) →
      mintShortCode (fun c => db.links.any (fun l => l.shortCode == c)) stream =
        .ok (stream i)) := by
  constructor
  · intro hall
    have hmint : mintShortCode (fun c => db.links.any (fun l => l.shortCode == c)) stream =
        .error "Failed to generate unique short code" := by
      unfold mintShortCode
      exact mintAux_all_taken _ _ 11 0 (fun j hj => by simpa using hall j (by omega))
    simp only [postLinks, hw, Bool.true_eq_false, if_false, hm]
    cases hfound : db.agents.find? (fun a => a.walletAddress == jsToLower w) with
    | some a => simp only [hfound, hmint]
    | none => simp only [hfound, hmint]
  · intro hi hfree hbusy
    unfold mintShortCode
    have := mintAux_skip (fun c => db.links.any (fun l => l.shortCode == c)) stream i 0 11
      (by omega) (fun j hj => by simpa using hbusy j hj) (by simpa using hfree)
    simpa using this

/-- C4 (claim refuted on the HTTP status): on a store already holding the
codes `K0`…`K10`, a link-generation request whose 11 draws are exactly
those codes exhausts the retry bound, and the handler answers HTTP 400 —
not 500 — because the catch-all of `POST /links` maps every thrown error to
a 400 response. -/
theorem c4_counterexample_exhaustion_is_400_not_500 :
    (postLinks dbC4 "0xaaaaaaaaaaaaaaaaaaaaaaaaaaaaaaaaaaaaaaaa" "m1" (some merchC4)
        (.ok "http://u") (.error "no fallback") "r" "t" streamC4 "http://s").2 =
      linksErr 400 "Failed to generate unique short code" ∧
    (postLinks dbC4 "0xaaaaaaaaaaaaaaaaaaaaaaaaaaaaaaaaaaaaaaaa" "m1" (some merchC4)
        (.ok "http://u") (.error "no fallback") "r" "t" streamC4 "http://s").2.httpStatus ≠
      500 := by
  decide

/-- Witness for C4 (amended): the exhaustion branch at the concrete
11-collision store, and the success branch of the retry loop on a store
where only the first draw collides. -/
theorem c4_witness :
    (postLinks dbC4 "0xaaaaaaaaaaaaaaaaaaaaaaaaaaaaaaaaaaaaaaaa" "mW" (some merchC4)
        (.ok "http://u") (.error "nofb") "r" "t" streamC4 "http://s2").2 =
      linksErr 400 "Failed to generate unique short code" ∧
    mintShortCode (fun c => dbC7.links.any (fun l => l.shortCode == c))
        (fun i => if i = 0 then "c0de" else "fresh") = .ok "fresh" :=
  ⟨(c4_short_code_retry_bounded dbC4 "0xaaaaaaaaaaaaaaaaaaaaaaaaaaaaaaaaaaaaaaaa" "mW"
      merchC4 ⟨4, 0⟩ [] "http://u" "nofb" "r" "t" "http://s2" streamC4 0
      (by decide) rfl).1 (by decide),
   (c4_short_code_retry_bounded dbC7 "0xaaaaaaaaaaaaaaaaaaaaaaaaaaaaaaaaaaaaaaaa" "mW"
      merchC4 ⟨4, 0⟩ [] "http://u" "nofb" "r" "t" "http://s2"
      (fun i => if i = 0 then "c0de" else "fresh") 1
      (by decide) rfl).2 (by decide) (by decide) (by decide)⟩

/-! ## C9 -/

theorem toNat_ofNat_of_lt (n : Nat) (h : n < 55296) : (Char.ofNat n).toNat = n := by
  have hv : n.isValidChar := Or.inl h
  simp [Char.ofNat, hv, Char.ofNatAux, Char.toNat, UInt32.toNat]

theorem toLower_hex (c : Char) (h : isHexDigit c = true) :
    isLowerHexDigit c.toLower = true := by
  simp only [isHexDigit, decide_eq_true_eq] at h
  simp only [isLowerHexDigit, decide_eq_true_eq, Char.toLower]
  by_cases hu : 65 ≤ c.toNat ∧ c.toNat ≤ 90
  · rw [if_pos hu, toNat_ofNat_of_lt _ (by omega)]
    omega
  · rw [if_neg hu]
    omega

theorem extractFingerprintAux_eq_some_iff (cs fp : List Char) :
    extractFingerprintAux cs = some fp ↔
      ∃ rest, cs = "agent_".data ++ fp ++ '_' :: rest ∧ fp.length = 8 ∧
        fp.all isLowerHexDigit = true := by
  constructor
  · intro h
    unfold extractFingerprintAux at h
    split at h
    case isTrue hcond =>
      obtain ⟨h1, h2, h3, h4⟩ := hcond
      obtain rfl : (cs.drop 6).take 8 = fp := by injection h
      have e1 : cs = "agent_".data ++ cs.drop 6 := by
        conv_lhs => rw [← List.take_append_drop 6 cs]
        rw [h1]
      have e2 : cs.drop 6 = (cs.drop 6).take 8 ++ cs.drop 14 := by
        conv_lhs => rw [← List.take_append_drop 8 (cs.drop 6)]
        simp
      have e3 : cs.drop 14 = '_' :: cs.drop 15 := by
        conv_lhs => rw [← List.take_append_drop 1 (cs.drop 14)]
        rw [h4]
        simp
      refine ⟨cs.drop 15, ?_, h2, h3⟩
      conv_lhs => rw [e1, e2, e3]
      simp
    case isFalse => exact absurd h (by simp)
  · rintro ⟨rest, rfl, hlen, hall⟩
    rw [List.append_assoc]
    have h6 : ("agent_".data ++ (fp ++ '_' :: rest)).take 6 = "agent_".data :=
      List.take_left' rfl
    have hd6 : ("agent_".data ++ (fp ++ '_' :: rest)).drop 6 = fp ++ '_' :: rest :=
      List.drop_left' rfl
    have h8 : (fp ++ '_' :: rest).take 8 = fp := List.take_left' hlen
    have hd14 : ("agent_".data ++ (fp ++ '_' :: rest)).drop 14 = '_' :: rest := by
      have e : ("agent_".data ++ (fp ++ '_' :: rest)).drop 14 =
          (("agent_".data ++ (fp ++ '_' :: rest)).drop 6).drop 8 := by
        simp
      rw [e, hd6, List.drop_left' hlen]
    unfold extractFingerprintAux
    rw [if_pos]
    · rw [hd6, h8]
    · refine ⟨h6, ?_, ?_, ?_⟩
      · rw [hd6, h8]
        exact hlen
      · rw [hd6, h8]
        exact hall
      · rw [hd14]
        rfl

theorem extractFingerprint_shape (s : String) :
    extractWalletFingerprint s = none ↔ ¬ TokenShape s := by
  unfold extractWalletFingerprint TokenShape
  constructor
  · intro h ⟨fp, rest, hdec, hlen, hall⟩
    have : extractFingerprintAux s.data = some fp :=
      (extractFingerprintAux_eq_some_iff s.data fp).mpr ⟨rest, hdec, hlen, hall⟩
    rw [this] at h
    exact absurd h (by simp)
  · intro h
    cases haux : extractFingerprintAux s.data with
    | none => rfl
    | some fp =>
      obtain ⟨rest, hdec, hlen, hall⟩ :=
        (extractFingerprintAux_eq_some_iff s.data fp).mp haux
      exact absurd ⟨fp, rest, hdec, hlen, hall⟩ h

instance : DecidablePred TokenShape := fun s =>
  decidable_of_iff ((extractFingerprintAux s.data).isSome = true) (by
    rw [Option.isSome_iff_exists]
    constructor
    · rintro ⟨fp, hfp⟩
      obtain ⟨rest, hdec, hlen, hall⟩ :=
        (extractFingerprintAux_eq_some_iff s.data fp).mp hfp
      exact ⟨fp, rest, hdec, hlen, hall⟩
    · rintro ⟨fp, rest, hdec, hlen, hall⟩
      exact ⟨fp, (extractFingerprintAux_eq_some_iff s.data fp).mpr ⟨rest, hdec, hlen, hall⟩⟩)

/-- C9: for a wallet address matching `^0x[a-fA-F0-9]{40}$`, decoding the
token produced by encoding the address recovers exactly the lower-cased
first 8 hex characters after the `0x` marker (for any random and time
components); and every string that is not of the expected token shape
(`agent_` + 8 lower-hex characters + `_` + anything) decodes to `none`. -/
theorem c9_fingerprint_roundtrip_and_reject (w randomPart timePart s : String)
    (hw : validWallet w = true) (hs : ¬ TokenShape s) :
    extractWalletFingerprint (generateSubId w randomPart timePart) =
      some (jsToLower (strSlice w 2 10)) ∧
    extractWalletFingerprint s = none := by
  refine ⟨?_, (extractFingerprint_shape s).mpr hs⟩
  unfold validWallet at hw
  split at hw
  case h_2 => exact absurd hw (by simp)
  case h_1 rest heq =>
    rw [Bool.and_eq_true, beq_iff_eq] at hw
    obtain ⟨hlen40, hhex⟩ := hw
    have hslice : (strSlice w 2 10).data = (w.data.drop 2).take 8 := rfl
    have hfpdata : (jsToLower (strSlice w 2 10)).data =
        ((w.data.drop 2).take 8).map Char.toLower := rfl
    have hfplen : ((w.data.drop 2).take 8).length = 8 := by
      rw [List.length_take, heq]
      simp [hlen40]
    have htoken : (generateSubId w randomPart timePart).data =
        "agent_".data ++ ((jsToLower (strSlice w 2 10)).data ++
          '_' :: (randomPart ++ "_" ++ timePart).data) := by
      unfold generateSubId
      simp [String.data_append]
    have haux : extractFingerprintAux (generateSubId w randomPart timePart).data =
        some (jsToLower (strSlice w 2 10)).data := by
      rw [(extractFingerprintAux_eq_some_iff _ _)]
      refine ⟨(randomPart ++ "_" ++ timePart).data, by rw [htoken]; simp, ?_, ?_⟩
      · rw [hfpdata, List.length_map]
        exact hfplen
      · rw [hfpdata, List.all_map]
        rw [List.all_eq_true]
        intro c hc
        have hc' : c ∈ w.data.drop 2 := List.mem_of_mem_take hc
        rw [heq] at hc'
        have : isHexDigit c = true := by
          rw [List.all_eq_true] at hhex
          exact hhex c (by simpa using hc')
        exact toLower_hex c this
    unfold extractWalletFingerprint
    rw [haux]
    rfl

/-- Witness for C9: encoding the mixed-case wallet
`0xAbCdEf1234567890aaaaaaaaaaaaaaaaaaaaaaaa` and decoding the fingerprint
recovers `abcdef12`; the string `not-a-token` decodes to `none`. -/
theorem c9_witness :
    extractWalletFingerprint
        (generateSubId "0xAbCdEf1234567890aaaaaaaaaaaaaaaaaaaaaaaa" "r4nd" "t1me") =
      some (jsToLower (strSlice "0xAbCdEf1234567890aaaaaaaaaaaaaaaaaaaaaaaa" 2 10)) ∧
    extractWalletFingerprint "not-a-token" = none :=
  c9_fingerprint_roundtrip_and_reject "0xAbCdEf1234567890aaaaaaaaaaaaaaaaaaaaaaaa"
    "r4nd" "t1me" "not-a-token" (by decide) (by decide)

/-! ## C5 and C6 -/

theorem ingest_update_step (db : Db) (t : String) (payout : PayoutRequest → PayoutOutcome)
    (pb : Postback) (link : AgentLink) (agent : Agent) (o : String)
    (pre : List AgentReward) (R : AgentReward)
    (hl : db.links.find? (fun l => l.subId == pb.subId) = some link)
    (ha : db.agents.find? (fun a => a.id == link.agentId) = some agent)
    (ho : o ≠ "") (hpb : pb.orderId = some o)
    (hshape : db.rewards = pre ++ [R])
    (hpre : ∀ r ∈ pre, (r.linkId == link.id && r.orderId == some o) = false)
    (hpreid : ∀ r ∈ pre, r.id ≠ R.id)
    (hRl : R.linkId = link.id) (hRo : R.orderId = some o) :
    (ingestPostback db t payout pb).1 =
      { db with rewards := pre ++ [updatedReward R pb t] } := by
  have hord : presentOrderId pb.orderId = some o := by
    simp [presentOrderId, hpb, ho]
  have hfind : findReward db link.id (presentOrderId pb.orderId) = some R := by
    unfold findReward
    rw [hord, hshape, List.find?_append]
    have h1 : pre.find? (fun r => r.linkId == link.id && r.orderId == some o) = none :=
      List.find?_eq_none.mpr (fun x hx => by simp [hpre x hx])
    rw [h1]
    simp [List.find?, hRl, hRo]
  have hmap : db.rewards.map
      (fun x => if x.id == R.id then updatedReward R pb t else x) =
      pre ++ [updatedReward R pb t] := by
    rw [hshape, List.map_append]
    congr 1
    · have : ∀ x ∈ pre,
          (if x.id == R.id then updatedReward R pb t else x) = id x := by
        intro x hx
        simp [hpreid x hx]
      rw [List.map_congr_left this, List.map_id]
    · simp
  simp only [ingestPostback, hl, ha, hfind, finishPostback_fst]
  rw [hmap]

theorem ingest_create_step (db : Db) (t : String) (payout : PayoutRequest → PayoutOutcome)
    (pb : Postback) (link : AgentLink) (agent : Agent) (o : String)
    (hl : db.links.find? (fun l => l.subId == pb.subId) = some link)
    (ha : db.agents.find? (fun a => a.id == link.agentId) = some agent)
    (ho : o ≠ "") (hpb : pb.orderId = some o)
    (hnone : ∀ r ∈ db.rewards, (r.linkId == link.id && r.orderId == some o) = false) :
    (ingestPostback db t payout pb).1 =
      { db with rewards := db.rewards ++ [createdReward db link pb t],
                nextId := db.nextId + 1 } := by
  have hord : presentOrderId pb.orderId = some o := by
    simp [presentOrderId, hpb, ho]
  have hfind : findReward db link.id (presentOrderId pb.orderId) = none := by
    unfold findReward
    rw [hord]
    exact List.find?_eq_none.mpr (fun x hx => by simp [hnone x hx])
  simp only [ingestPostback, hl, ha, hfind, finishPostback_fst]

theorem ingestSeq_existing_run (link : AgentLink) (agent : Agent) (o : String)
    (payout : PayoutRequest → PayoutOutcome) (ho : o ≠ "") :
    ∀ (es : List (String × Postback)) (pre : List AgentReward) (db : Db) (R : AgentReward),
    db.links.find? (fun l => l.subId == link.subId) = some link →
    db.agents.find? (fun a => a.id == link.agentId) = some agent →
    (∀ e ∈ es, e.2.subId = link.subId ∧ e.2.orderId = some o) →
    db.rewards = pre ++ [R] →
    (∀ r ∈ pre, (r.linkId == link.id && r.orderId == some o) = false) →
    (∀ r ∈ pre, r.id ≠ R.id) →
    R.linkId = link.id → R.orderId = some o →
    ∃ R', (ingestSeq db payout es).rewards = pre ++ [R'] ∧
      (ingestSeq db payout es).links = db.links ∧
      (ingestSeq db payout es).agents = db.agents ∧
      R'.id = R.id ∧ R'.linkId = link.id ∧ R'.orderId = some o ∧
      R'.statusHistory =
        es.foldl (fun h e => insertHistory h e.1 (mapVendorStatus e.2.status))
          R.statusHistory ∧
      R'.status = (es.map (fun e => mapVendorStatus e.2.status)).getLastD R.status ∧
      R'.commissionUsdt =
        es.foldl (fun a e => jsOrRat e.2.commissionUsdt a) R.commissionUsdt := by
  intro es
  induction es with
  | nil =>
    intro pre db R hl ha _ hshape _ _ hRl hRo
    exact ⟨R, hshape, rfl, rfl, rfl, hRl, hRo, rfl, rfl, rfl⟩
  | cons e es ih =>
    intro pre db R hl ha hev hshape hpre hpreid hRl hRo
    obtain ⟨hsub, hord⟩ := hev e (List.mem_cons_self e es)
    have hl' : db.links.find? (fun l => l.subId == e.2.subId) = some link := by
      rw [hsub]
      exact hl
    have hstep := ingest_update_step db e.1 payout e.2 link agent o pre R hl' ha ho hord
      hshape hpre hpreid hRl hRo
    have hseq : ingestSeq db payout (e :: es) =
        ingestSeq { db with rewards := pre ++ [updatedReward R e.2 e.1] } payout es := by
      unfold ingestSeq
      rw [List.foldl_cons, hstep]
    rw [hseq]
    obtain ⟨R', h1, h2, h3, h4, h5, h6, h7, h8, h9⟩ :=
      ih pre { db with rewards := pre ++ [updatedReward R e.2 e.1] }
        (updatedReward R e.2 e.1) hl ha
        (fun x hx => hev x (List.mem_cons_of_mem e hx)) rfl hpre
        (fun r hr => by simpa [updatedReward] using hpreid r hr)
        (by simpa [updatedReward] using hRl)
        (by simpa [updatedReward] using hRo)
    refine ⟨R', h1, h2, h3, by simpa [updatedReward] using h4, h5, h6, ?_, ?_, ?_⟩
    · rw [h7]
      simp [updatedReward]
    · rw [h8, List.map_cons, List.getLastD_cons]
      rfl
    · rw [h9]
      simp [updatedReward]

theorem ingestSeq_fresh_run (db : Db) (payout : PayoutRequest → PayoutOutcome)
    (link : AgentLink) (agent : Agent) (o : String) (e0 : String × Postback)
    (es : List (String × Postback))
    (hl : db.links.find? (fun l => l.subId == link.subId) = some link)
    (ha : db.agents.find? (fun a => a.id == link.agentId) = some agent)
    (ho : o ≠ "")
    (hev : ∀ e ∈ e0 :: es, e.2.subId = link.subId ∧ e.2.orderId = some o)
    (hnone : ∀ r ∈ db.rewards, (r.linkId == link.id && r.orderId == some o) = false)
    (hfresh : ∀ r ∈ db.rewards, r.id ≠ db.nextId) :
    ∃ R', (ingestSeq db payout (e0 :: es)).rewards = db.rewards ++ [R'] ∧
      R'.id = db.nextId ∧ R'.linkId = link.id ∧ R'.orderId = some o ∧
      R'.statusHistory =
        es.foldl (fun h e => insertHistory h e.1 (mapVendorStatus e.2.status))
          [(e0.1, mapVendorStatus e0.2.status)] ∧
      R'.status = (es.map (fun e => mapVendorStatus e.2.status)).getLastD
        (mapVendorStatus e0.2.status) ∧
      R'.commissionUsdt =
        es.foldl (fun a e => jsOrRat e.2.commissionUsdt a)
          (jsOrRat e0.2.commissionUsdt 0) := by
  obtain ⟨hsub, hord⟩ := hev e0 (List.mem_cons_self e0 es)
  have hl' : db.links.find? (fun l => l.subId == e0.2.subId) = some link := by
    rw [hsub]
    exact hl
  have hstep := ingest_create_step db e0.1 payout e0.2 link agent o hl' ha ho hord hnone
  have hseq : ingestSeq db payout (e0 :: es) =
      ingestSeq { db with rewards := db.rewards ++ [createdReward db link e0.2 e0.1],
                          nextId := db.nextId + 1 } payout es := by
    unfold ingestSeq
    rw [List.foldl_cons, hstep]
  rw [hseq]
  obtain ⟨R', h1, _, _, h4, h5, h6, h7, h8, h9⟩ :=
    ingestSeq_existing_run link agent o payout ho es db.rewards
      { db with rewards := db.rewards ++ [createdReward db link e0.2 e0.1],
                nextId := db.nextId + 1 }
      (createdReward db link e0.2 e0.1) hl ha
      (fun x hx => hev x (List.mem_cons_of_mem e0 hx)) rfl hnone
      (fun r hr => by simpa [createdReward] using hfresh r hr)
      rfl (by simpa [createdReward] using hord)
  refine ⟨R', h1, by simpa [createdReward] using h4, h5, h6, ?_, ?_, ?_⟩
  · rw [h7]
    rfl
  · rw [h8]
    rfl
  · rw [h9]
    rfl

theorem foldl_insertHistory_of_nodup :
    ∀ (es : List (String × Postback)) (h0 : List (String × RewardStatus)),
    (es.map Prod.fst).Nodup →
    (∀ t ∈ es.map Prod.fst, ∀ p ∈ h0, p.1 ≠ t) →
    es.foldl (fun h e => insertHistory h e.1 (mapVendorStatus e.2.status)) h0 =
      h0 ++ es.map (fun e => (e.1, mapVendorStatus e.2.status)) := by
  intro es
  induction es with
  | nil => intro h0 _ _; simp
  | cons e es ih =>
    intro h0 hnodup hkeys
    rw [List.map_cons, List.nodup_cons] at hnodup
    have hfalse : ¬ (h0.any (fun p => p.1 == e.1) = true) := by
      intro hc
      rw [List.any_eq_true] at hc
      obtain ⟨p, hp, hpe⟩ := hc
      exact hkeys e.1 (by simp) p hp (by simpa using hpe)
    have hins : insertHistory h0 e.1 (mapVendorStatus e.2.status) =
        h0 ++ [(e.1, mapVendorStatus e.2.status)] := by
      unfold insertHistory
      rw [if_neg hfalse]
    rw [List.foldl_cons, hins, ih (h0 ++ [(e.1, mapVendorStatus e.2.status)]) hnodup.2 ?_]
    · simp
    · intro t ht p hp
      rcases List.mem_append.mp hp with hp0 | hp1
      · exact hkeys t (by simp [ht]) p hp0
      · have : p = (e.1, mapVendorStatus e.2.status) := by simpa using hp1
        subst this
        intro hcontra
        exact hnodup.1 (hcontra ▸ ht)

theorem getLastD_map_of_getLast? {α β : Type} (l : List α) (x : α) (d : β) (f : α → β)
    (h : l.getLast? = some x) : (l.map f).getLastD d = f x := by
  rw [List.getLastD_eq_getLast?, List.getLast?_map, h]
  rfl

/-- C6: for a sequence of postbacks that all carry the attribution token of
`link` and the same present (non-empty) vendor order id `o`, starting from
a store with no reward for `(link, o)`: the first postback creates the one
reward row and every later postback merges into it, so the store afterwards
holds exactly one reward for `(link, o)` and exactly one new reward row in
total. -/
theorem c6_at_most_one_reward_per_link_order (db : Db)
    (payout : PayoutRequest → PayoutOutcome) (link : AgentLink) (agent : Agent)
    (o : String) (e0 : String × Postback) (es : List (String × Postback))
    (hl : db.links.find? (fun l => l.subId == link.subId) = some link)
    (ha : db.agents.find? (fun a => a.id == link.agentId) = some agent)
    (ho : o ≠ "")
    (hev : ∀ e ∈ e0 :: es, e.2.subId = link.subId ∧ e.2.orderId = some o)
    (hnone : ∀ r ∈ db.rewards, (r.linkId == link.id && r.orderId == some o) = false)
    (hfresh : ∀ r ∈ db.rewards, r.id ≠ db.nextId) :
    (ingestSeq db payout (e0 :: es)).rewards.length = db.rewards.length + 1 ∧
    ((ingestSeq db payout (e0 :: es)).rewards.filter
        (fun r => r.linkId == link.id && r.orderId == some o)).length = 1 := by
  obtain ⟨R', h1, _, h4, h5, _, _, _⟩ :=
    ingestSeq_fresh_run db payout link agent o e0 es hl ha ho hev hnone hfresh
  rw [h1]
  constructor
  · simp
  · rw [List.filter_append]
    have hpre : db.rewards.filter (fun r => r.linkId == link.id && r.orderId == some o) =
        [] := by
      rw [List.filter_eq_nil_iff]
      intro r hr
      simp [hnone r hr]
    rw [hpre]
    simp [h4, h5]

/-- C5 (amended): for a sequence of postbacks sharing `link`'s token and the
same present order id `o`, applied at pairwise-distinct timestamps to a
store with no reward for `(link, o)` yet: the final reward's status equals
the canonical mapping of the LAST applied vendor status, and its status
history holds exactly one `(timestamp, canonical status)` entry per applied
postback, in application order.  (Distinct timestamps are required: the
history is a JSON object keyed by timestamp, so postbacks sharing a
timestamp key collapse into one entry — see the counterexample.) -/
theorem c5_last_status_wins_history_per_postback (db : Db)
    (payout : PayoutRequest → PayoutOutcome) (link : AgentLink) (agent : Agent)
    (o : String) (e0 elast : String × Postback) (es : List (String × Postback))
    (hl : db.links.find? (fun l => l.subId == link.subId) = some link)
    (ha : db.agents.find? (fun a => a.id == link.agentId) = some agent)
    (ho : o ≠ "")
    (hev : ∀ e ∈ e0 :: es, e.2.subId = link.subId ∧ e.2.orderId = some o)
    (hnone : ∀ r ∈ db.rewards, (r.linkId == link.id && r.orderId == some o) = false)
    (hfresh : ∀ r ∈ db.rewards, r.id ≠ db.nextId)
    (hnodup : ((e0 :: es).map Prod.fst).Nodup)
    (hlast : (e0 :: es).getLast? = some elast) :
    (ingestSeq db payout (e0 :: es)).rewards.map (fun r => r.statusHistory) =
      db.rewards.map (fun r => r.statusHistory) ++
        [(e0 :: es).map (fun e => (e.1, mapVendorStatus e.2.status))] ∧
    (ingestSeq db payout (e0 :: es)).rewards.map (fun r => r.status) =
      db.rewards.map (fun r => r.status) ++ [mapVendorStatus elast.2.status] := by
  obtain ⟨R', h1, _, _, _, h6, h7, _⟩ :=
    ingestSeq_fresh_run db payout link agent o e0 es hl ha ho hev hnone hfresh
  rw [List.map_cons, List.nodup_cons] at hnodup
  have hhist : R'.statusHistory =
      (e0 :: es).map (fun e => (e.1, mapVendorStatus e.2.status)) := by
    rw [h6, foldl_insertHistory_of_nodup es [(e0.1, mapVendorStatus e0.2.status)]
      hnodup.2 ?_]
    · simp
    · intro t ht p hp
      have : p = (e0.1, mapVendorStatus e0.2.status) := by simpa using hp
      subst this
      intro hcontra
      exact hnodup.1 (hcontra ▸ ht)
  have hstat : R'.status = mapVendorStatus elast.2.status := by
    have hmap := getLastD_map_of_getLast? (e0 :: es) elast
      (mapVendorStatus e0.2.status) (fun e => mapVendorStatus e.2.status) hlast
    rw [List.map_cons, List.getLastD_cons] at hmap
    rw [h7, hmap]
  rw [h1, List.map_append, List.map_append]
  exact ⟨by simp [hhist], by simp [hstat]⟩

/-- C5 (claim refuted on timestamp-key collisions): two postbacks for the
same `(link, order id)` applied with the SAME timestamp key `T` produce a
single status-history entry, not one entry per applied postback — the
history is a JSON object keyed by timestamp, so the second postback
overwrites the first one's entry in place. -/
theorem c5_counterexample_same_timestamp_collapses :
    (ingestSeq dbSeq payoutOk [("T", pbOrder "pending"), ("T", pbOrder "approved")]).rewards.map
        (fun r => r.statusHistory) = [[("T", RewardStatus.COMMISSIONED)]] ∧
    (ingestSeq dbSeq payoutOk [("T", pbOrder "pending"), ("T", pbOrder "approved")]).rewards.map
        (fun r => r.statusHistory.length) = [1] := by
  decide

/-- Witness for C5 (amended): two postbacks at distinct timestamps yield a
two-entry history in application order and the final status `COMMISSIONED`
of the last applied postback. -/
theorem c5_witness :
    (ingestSeq dbSeq payoutOk [("T1", pbOrder "pending"), ("T2", pbOrder "approved")]).rewards.map
        (fun r => r.statusHistory) =
      dbSeq.rewards.map (fun r => r.statusHistory) ++
        [[("T1", pbOrder "pending"), ("T2", pbOrder "approved")].map
          (fun e => (e.1, mapVendorStatus e.2.status))] ∧
    (ingestSeq dbSeq payoutOk [("T1", pbOrder "pending"), ("T2", pbOrder "approved")]).rewards.map
        (fun r => r.status) =
      dbSeq.rewards.map (fun r => r.status) ++
        [mapVendorStatus (pbOrder "approved").status] :=
  c5_last_status_wins_history_per_postback dbSeq payoutOk linkC agentW "O1"
    ("T1", pbOrder "pending") ("T2", pbOrder "approved")
    [("T2", pbOrder "approved")] (by decide) (by decide) (by decide) (by decide)
    (by decide) (by decide) (by decide) (by decide)

/-- Witness for C6: two postbacks for order `O1` on an empty reward table
leave exactly one reward row, which matches `(link 1, O1)`. -/
theorem c6_witness :
    (ingestSeq dbSeq payoutOk [("T1", pbOrder "pending"), ("T2", pbOrder "approved")]).rewards.length =
      dbSeq.rewards.length + 1 ∧
    ((ingestSeq dbSeq payoutOk [("T1", pbOrder "pending"), ("T2", pbOrder "approved")]).rewards.filter
        (fun r => r.linkId == linkC.id && r.orderId == some "O1")).length = 1 :=
  c6_at_most_one_reward_per_link_order dbSeq payoutOk linkC agentW "O1"
    ("T1", pbOrder "pending") [("T2", pbOrder "approved")]
    (by decide) (by decide) (by decide) (by decide) (by decide) (by decide)
